import Mathlib

/-!
Shallow embedding of `mdflib`'s `Cg4Block` (channel-group block of the MDF4
container format), translated from `src/mdflib/src/cg4block.cpp`.

Machine-integer conventions: file offsets, link values and counters are
modelled as `Nat`.  The two header fields `nof_data_bytes_` /
`nof_invalid_bytes_` are `uint32_t` in the source; where their 32-bit width
is material (the VLSD cumulative-size packing of `UpdateVlsdSize`) the
definitions apply the source's own masks (`&&& 0xFFFFFFFF`, `>>> 32`) and
the 64-bit accumulator is reduced `% 2^64`.
-/

namespace Mdf

/-- Channel type codes of the `ChannelType` enumeration used by
`cg4block.cpp` (`Master`, `VirtualMaster`, `FixedLength`, `VariableLength`,
`MaxLength`); `Other` stands for the remaining codes, which the translated
functions never single out. -/
inductive ChannelType where
  | Master
  | VirtualMaster
  | FixedLength
  | VariableLength
  | MaxLength
  | Other
deriving DecidableEq, Repr

/-- Modelled from the spec: the `Channel` collaborator interface (§6) —
kind, invalid-capable flag bit, internal-layout byte offset, byte width,
axis-link record, payload link and block identity.  `Cn4Block` code is not
part of `src/`; only the fields the channel-group code reads or writes are
modelled. -/
structure ChannelData where
  /-- `Index()`: the channel block's own file position (0 if unwritten). -/
  index : Nat
  /-- `Type()`. -/
  chType : ChannelType
  /-- `Name()`. -/
  name : String
  /-- `XAxisLinkList()`: the per-channel axis-link record. -/
  xAxisLinks : List Nat
  /-- The signal-data link patched by `UpdateDataLink`. -/
  dataLink : Nat
  /-- `DataBytes()`: the channel's reported byte width. -/
  dataBytes : Nat
  /-- `Flags()` bit set (`CnFlag` bits). -/
  flags : Nat
  /-- The invalid-bit position set by `SetInvalidOffset`. -/
  invalidOffset : Nat
  /-- The record byte offset set by the channel's `PrepareForWriting`. -/
  byteOffset : Nat
deriving DecidableEq, Repr

/-- A CN block together with its composition (`Cx4`) children of block type
`"CN"`: the dynamic-downcast filter of `AddCxChannels` is modelled by the
children list containing channel nodes only (spec §9: "model channel as a
tagged variant with an explicit composite-children field"). -/
inductive Cn4Block where
  | node (data : ChannelData) (cx : List Cn4Block)

def Cn4Block.data : Cn4Block → ChannelData
  | .node d _ => d

def Cn4Block.cx : Cn4Block → List Cn4Block
  | .node _ cs => cs

def Cn4Block.index (c : Cn4Block) : Nat := c.data.index

def Cn4Block.chType (c : Cn4Block) : ChannelType := c.data.chType

def Cn4Block.cnName (c : Cn4Block) : String := c.data.name

def Cn4Block.xAxisLinkList (c : Cn4Block) : List Nat := c.data.xAxisLinks

def Cn4Block.dataLink (c : Cn4Block) : Nat := c.data.dataLink

def Cn4Block.dataBytes (c : Cn4Block) : Nat := c.data.dataBytes

def Cn4Block.flags (c : Cn4Block) : Nat := c.data.flags

def Cn4Block.invalidOffset (c : Cn4Block) : Nat := c.data.invalidOffset

def Cn4Block.byteOffset (c : Cn4Block) : Nat := c.data.byteOffset

/-- `CgFlag` constants (values from the MDF4 format / `cg4block.h`, which is
outside `src/`; `MakeFlagString` in the source confirms `VLSD = 0x0001`). -/
def CgFlag.VlsdChannel : Nat := 0x0001

def CgFlag.RemoteMaster : Nat := 0x0008

/-- `CnFlag::InvalidValid` (MDF4 `cn_flags` bit 1; `cn4block.h` is outside
`src/`). -/
def CnFlag.InvalidValid : Nat := 0x0002

/-- The state of a `Cg4Block`, translated from the members `cg4block.cpp`
reads and writes.  `cnList` entries are `Option` because the source guards
every traversal of `cn_list_` against null entries. -/
structure Cg4Block where
  /-- `FilePosition()`; `Index()` returns it (0 if unwritten). -/
  filePosition : Nat
  /-- `record_id_`. -/
  recordId : Nat
  /-- `nof_samples_`. -/
  nofSamples : Nat
  /-- `flags_` (u16 bit set). -/
  flags : Nat
  /-- `path_separator_`. -/
  pathSeparator : Nat
  /-- `nof_data_bytes_` (u32 in the file format). -/
  nofDataBytes : Nat
  /-- `nof_invalid_bytes_` (u32 in the file format). -/
  nofInvalidBytes : Nat
  /-- `acquisition_name_`. -/
  acquisitionName : String
  /-- `link_list_`. -/
  linkList : List Nat
  /-- `cn_list_`. -/
  cnList : List (Option Cn4Block)
  /-- Size of `sample_buffer_` (only its size is observable here). -/
  sampleBufferSize : Nat
  /-- `Sample()` — the replay cursor kept by the base class. -/
  sampleCursor : Nat
  /-- `nof_samples_position_` patch position (0 = not recorded). -/
  nofSamplesPosition : Nat
  /-- `nof_data_position_` patch position (0 = not recorded). -/
  nofDataPosition : Nat
  /-- `nof_invalid_position_` patch position (0 = not recorded). -/
  nofInvalidPosition : Nat

/-- `Cg4Block::Index() const { return FilePosition(); }` -/
def Cg4Block.index (g : Cg4Block) : Nat := g.filePosition

/-- The `reference` argument of `GetXChannel` is an `IChannel`; the source
downcasts it to `Cn4Block` with `dynamic_cast`.  `other` stands for any
`IChannel` implementation that is not a `Cn4Block` (downcast fails). -/
inductive IChannelRef where
  | cn4 (c : Cn4Block)
  | other

/-- `Cg4Block::GetXChannel` (cg4block.cpp:75-111): downcast the reference;
if it carries a 3-entry axis-link list whose middle entry is this group's
`Index()` and whose third entry is non-zero, look that third entry up in
`cn_list_` by channel `Index()`; otherwise fall back to the first
`Master`/`VirtualMaster` channel of `cn_list_`. -/
def Cg4Block.getXChannel (g : Cg4Block) (reference : IChannelRef) : Option Cn4Block :=
  match reference with
  | .other => none
  | .cn4 cn4 =>
    let xAxisList := cn4.xAxisLinkList
    let axisFound : Option Cn4Block :=
      if xAxisList.length = 3 ∧ xAxisList.getD 1 0 = g.index ∧ xAxisList.getD 2 0 ≠ 0 then
        let channelIndex := xAxisList.getD 2 0
        match g.cnList.find? (fun p =>
            match p with
            | none => false
            | some c => c.index == channelIndex) with
        | some p => p
        | none => none
      else none
    match axisFound with
    | some c => some c
    | none =>
      match g.cnList.find? (fun p =>
          match p with
          | none => false
          | some c => c.chType == ChannelType.Master
              || c.chType == ChannelType.VirtualMaster) with
      | some p => p
      | none => none

mutual

/-- `AddCxChannels` (cg4block.cpp:35-50): push every composition child that
is a channel, recursively.  `addCxList` is the loop over a child list. -/
def addCxChannels : Cn4Block → List Cn4Block
  | .node _ cx => addCxList cx

def addCxList : List Cn4Block → List Cn4Block
  | [] => []
  | c :: rest => (c :: addCxChannels c) ++ addCxList rest

end

/-- The flattening of a channel list as `Cg4Block::Channels()` performs it:
each non-null top-level channel followed by its recursively collected
composition channels. -/
def flatChannels (l : List (Option Cn4Block)) : List Cn4Block :=
  (l.map (fun p =>
    match p with
    | none => []
    | some c => c :: addCxChannels c)).flatten

/-- `Cg4Block::Channels()` (cg4block.cpp:336-349): the declared channel
list with every composition channel flattened in, skipping null entries. -/
def Cg4Block.channels (g : Cg4Block) : List Cn4Block :=
  flatChannels g.cnList

mutual

/-- The link patching performed inside `Cg4Block::Write` ("for channel in
`Channels()`, if `channel->Type() == t` then `UpdateDataLink(file, v)`"):
since `Channels()` enumerates every node of the channel trees exactly once,
the pointer mutation is modelled as a structural map setting `dataLink := v`
on every node of type `t`. -/
def patchChannel (t : ChannelType) (v : Nat) : Cn4Block → Cn4Block
  | .node d cx =>
      .node (if d.chType = t then { d with dataLink := v } else d)
        (patchChannelList t v cx)

def patchChannelList (t : ChannelType) (v : Nat) : List Cn4Block → List Cn4Block
  | [] => []
  | c :: rest => patchChannel t v c :: patchChannelList t v rest

end

/-- Spec-side helper: the first channel of kind `Master` or `VirtualMaster`
in a flat channel list (used to state the axis-resolution claims). -/
def firstMasterIn (l : List Cn4Block) : Option Cn4Block :=
  l.find? (fun c =>
    c.chType == ChannelType.Master || c.chType == ChannelType.VirtualMaster)

/-- Spec-side helper: the first channel of kind `Master` or `VirtualMaster`
in a channel list with possible null entries, written as the spec describes
the fallback scan. -/
def firstMasterOpt : List (Option Cn4Block) → Option Cn4Block
  | [] => none
  | none :: rest => firstMasterOpt rest
  | some c :: rest =>
    if c.chType = ChannelType.Master ∨ c.chType = ChannelType.VirtualMaster then
      some c
    else firstMasterOpt rest

/-- A default ChannelData for building concrete instances. -/
def chd (idx : Nat) (t : ChannelType) : ChannelData :=
  { index := idx, chType := t, name := "", xAxisLinks := [], dataLink := 0,
    dataBytes := 0, flags := 0, invalidOffset := 0, byteOffset := 0 }

/-- A default (empty, unwritten) channel group for building instances. -/
def emptyCg : Cg4Block :=
  { filePosition := 0, recordId := 0, nofSamples := 0, flags := 0,
    pathSeparator := 0, nofDataBytes := 0, nofInvalidBytes := 0,
    acquisitionName := "", linkList := [], cnList := [],
    sampleBufferSize := 0, sampleCursor := 0, nofSamplesPosition := 0,
    nofDataPosition := 0, nofInvalidPosition := 0 }

/-- C1 counterexample group: its only top-level channel is a fixed-length
channel carrying a `Master` composition child, so the flattened channel
list contains a `Master` channel but the top-level list does not. -/
def cexG1 : Cg4Block :=
  { emptyCg with
    filePosition := 10,
    cnList := [some (.node (chd 20 ChannelType.FixedLength)
        [.node (chd 21 ChannelType.Master) []])] }

/-- C1 counterexample reference channel: no axis-link record. -/
def cexR1 : Cn4Block := .node (chd 22 ChannelType.FixedLength) []

/-- C1 witness group: a `Master` channel first, then an ordinary channel at
block index 42 that an explicit axis-link record designates. -/
def witG1 : Cg4Block :=
  { emptyCg with
    filePosition := 10,
    cnList := [some (.node (chd 30 ChannelType.Master) []),
               some (.node (chd 42 ChannelType.FixedLength) [])] }

/-- C1 witness reference: a 3-entry axis-link record `[5, 10, 42]` whose
middle entry is `witG1`'s identity and whose third entry is 42. -/
def witR1 : Cn4Block :=
  .node { chd 50 ChannelType.FixedLength with xAxisLinks := [5, 10, 42] } []

/-- Little-endian value of a byte list (how `ReadNumber` assembles a fixed
width unsigned integer; remaining high bytes of a short read stay at the
zero initialisation of the C++ variable). -/
def decodeLE (bs : List Nat) : Nat :=
  bs.foldr (fun b acc => b % 256 + 256 * acc) 0

/-- One record notification, as passed to
`IDataGroup::NotifySampleObservers(sample, record_id, record)`. -/
structure RecordDelivery where
  sample : Nat
  recordId : Nat
  record : List Nat
deriving DecidableEq, Repr

/-- `Cg4Block::ReadDataRecord` (cg4block.cpp:304-332).  The input stream is
the byte sequence at the current file position; a short stream models a
truncated file (`fread` returns the bytes actually available).  Returns the
consumed byte count, the notification delivered to the observer (if any)
and the updated group (the replay cursor `Sample()`/`IncrementSample()`
lives in the group state). -/
def Cg4Block.readDataRecord (g : Cg4Block) (stream : List Nat) :
    Nat × Option RecordDelivery × Cg4Block :=
  if g.flags &&& CgFlag.VlsdChannel ≠ 0 then
    -- VLSD framing: a 4-byte length prefix, then `length` payload bytes.
    let lenBytes := stream.take 4
    let length := decodeLE lenBytes
    let payload := (stream.drop 4).take length
    let count := lenBytes.length + (if length > 0 then payload.length else 0)
    -- `record` is allocated with `length` zero bytes; `fread` fills what is
    -- available.
    let record := payload ++ List.replicate (length - payload.length) 0
    if g.sampleCursor < g.nofSamples then
      (count, some ⟨g.sampleCursor, g.recordId, record⟩,
        { g with sampleCursor := g.sampleCursor + 1 })
    else
      (count, none, g)
  else
    -- Fixed-length framing.
    let recordSize := g.nofDataBytes + g.nofInvalidBytes
    let bytes := stream.take recordSize
    let count := bytes.length
    let record := bytes ++ List.replicate (recordSize - bytes.length) 0
    if g.sampleCursor < g.nofSamples then
      (count, some ⟨g.sampleCursor, g.recordId, record⟩,
        { g with sampleCursor := g.sampleCursor + 1 })
    else
      (count, none, g)

/-- `Cg4Block::UpdateVlsdSize` (cg4block.cpp:400-426).  For a VLSD group,
rebuild the 64-bit cumulative size from the `uint32` halves, skip one
length-prefixed record, add the consumed byte count (`ReadNumber` of the
4-byte prefix plus the `StepFilePosition` of the payload) to the counter,
split it back into the two halves with the source's own mask/shift, and
count one more sample.  The 64-bit accumulator wraps `% 2 ^ 64`. -/
def Cg4Block.updateVlsdSize (g : Cg4Block) (stream : List Nat) :
    Nat × Cg4Block :=
  if g.flags &&& CgFlag.VlsdChannel ≠ 0 then
    let vlsdSize0 := ((g.nofInvalidBytes <<< 32) + g.nofDataBytes) % 2 ^ 64
    let lenBytes := stream.take 4
    let length := decodeLE lenBytes
    -- `StepFilePosition` seeks forward by `length` and reports `length`.
    let count := lenBytes.length + (if length > 0 then length else 0)
    let vlsdSize := (vlsdSize0 + count) % 2 ^ 64
    (count,
      { g with
        nofDataBytes := vlsdSize &&& 0xFFFFFFFF,
        nofInvalidBytes := (vlsdSize >>> 32) &&& 0xFFFFFFFF,
        nofSamples := g.nofSamples + 1 })
  else
    let recordSize := g.nofDataBytes + g.nofInvalidBytes
    (recordSize, { g with nofSamples := g.nofSamples + 1 })

/-- The 64-bit cumulative VLSD payload size as `UpdateVlsdSize` rebuilds it
from the stored halves: `invalid_bytes` is the high 32 bits, `data_bytes`
the low 32 bits (cg4block.cpp:404-406). -/
def Cg4Block.vlsdSizeStored (g : Cg4Block) : Nat :=
  (g.nofInvalidBytes <<< 32) + g.nofDataBytes

/-- The name of the length channel scanned for during `Write`
(cg4block.cpp:251). -/
def dataLengthName : String := ".DataLength"

/-- `IChannelGroup::GetChannel` as called by `Write` — modelled from the
spec (§6: the group exposes channel lookup; the method body is outside
`src/`): the first channel of the flattened channel list whose name equals
`nm` exactly. -/
def Cg4Block.getChannel (g : Cg4Block) (nm : String) : Option Cn4Block :=
  g.channels.find? (fun c => c.cnName == nm)

/-- The persisted file, as a byte map from absolute offsets. -/
def File : Type := Nat → Nat

/-- Overwrite `bs.length` bytes of `f` starting at `pos` (the effect of a
`SetFilePosition` followed by a write). -/
def writeBytesAt (f : File) (pos : Nat) (bs : List Nat) : File :=
  fun a => if pos ≤ a ∧ a - pos < bs.length then bs.getD (a - pos) 0 else f a

/-- Little-endian encoding of `v` on `w` bytes (`WriteNumber`). -/
def encodeLE (w v : Nat) : List Nat :=
  (List.range w).map (fun i => v / 256 ^ i % 256)

/-- Modelled from the spec: the 24-byte block header (`"##CG"` type tag,
4 reserved bytes, block length, link count) followed by the link table
(§6).  The header emission itself is `MdfBlock::Write`, which is outside
`src/`; only its byte extent and determinism matter to the claims. -/
def headerBytes (g : Cg4Block) (linkCount blockLength : Nat) : List Nat :=
  [0x23, 0x23, 0x43, 0x47] ++ List.replicate 4 0 ++ encodeLE 8 blockLength ++
    encodeLE 8 linkCount ++
    ((List.range linkCount).map (fun i => encodeLE 8 (g.linkList.getD i 0))).flatten

/-- The byte size of header plus link table: 24 bytes plus 8 per link (6
links, 7 when `RemoteMaster` is set) — cg4block.cpp:182-186. -/
def Cg4Block.headerSize (g : Cg4Block) : Nat :=
  24 + 8 * (if g.flags &&& CgFlag.RemoteMaster ≠ 0 then 7 else 6)

/-- `Cg4Block::Write` (cg4block.cpp:176-264).

Update mode (`FilePosition() > 0`, lines 199-216): seek to each recorded
patch position (when non-zero) and overwrite `nof_samples_` (8 bytes),
`nof_data_bytes_` (4 bytes) and `nof_invalid_bytes_` (4 bytes); nothing
else is re-emitted (`MdfBlock::Update` is outside `src/` and modelled from
the spec: "do not re-emit structure").

First write (lines 217-262): emit header and fixed fields at `pos`,
recording `nof_samples_position_` always and the `nof_data_position_` /
`nof_invalid_position_` pair only for a VLSD group; then patch the signal
data link of every `VariableLength` channel of this group's flattened
channel list to this block's position, and, when a channel named
`".DataLength"` exists, patch every `MaxLength` channel's link to that
channel's block index.  Child blocks (channels, name text, source info,
comment) live outside the `[pos, pos + block_length)` byte range modelled
here. -/
def Cg4Block.writeBlock (g : Cg4Block) (pos : Nat) (f : File) :
    Cg4Block × File :=
  if g.filePosition > 0 then
    let f1 := if g.nofSamplesPosition > 0 then
        writeBytesAt f g.nofSamplesPosition (encodeLE 8 g.nofSamples) else f
    let f2 := if g.nofDataPosition > 0 then
        writeBytesAt f1 g.nofDataPosition (encodeLE 4 g.nofDataBytes) else f1
    let f3 := if g.nofInvalidPosition > 0 then
        writeBytesAt f2 g.nofInvalidPosition (encodeLE 4 g.nofInvalidBytes) else f2
    (g, f3)
  else
    let master := g.flags &&& CgFlag.RemoteMaster ≠ 0
    let vlsd := g.flags &&& CgFlag.VlsdChannel ≠ 0
    let linkCount := if master then 7 else 6
    let hs := 24 + 8 * linkCount
    let blockLength := hs + 32
    let f1 := writeBytesAt f pos (headerBytes g linkCount blockLength)
    let f2 := writeBytesAt f1 (pos + hs) (encodeLE 8 g.recordId)
    let samplesPos := pos + hs + 8
    let f3 := writeBytesAt f2 samplesPos (encodeLE 8 g.nofSamples)
    let f4 := writeBytesAt f3 (pos + hs + 16) (encodeLE 2 g.flags)
    let f5 := writeBytesAt f4 (pos + hs + 18) (encodeLE 2 g.pathSeparator)
    let f6 := writeBytesAt f5 (pos + hs + 20) (List.replicate 4 0)
    let dataPos := if vlsd then pos + hs + 24 else g.nofDataPosition
    let f7 := writeBytesAt f6 (pos + hs + 24) (encodeLE 4 g.nofDataBytes)
    let invalidPos := if vlsd then pos + hs + 28 else g.nofInvalidPosition
    let f8 := writeBytesAt f7 (pos + hs + 28) (encodeLE 4 g.nofInvalidBytes)
    let cn1 := if vlsd then
        g.cnList.map (Option.map (patchChannel ChannelType.VariableLength pos))
      else g.cnList
    let dlOpt := (flatChannels cn1).find? (fun c => c.cnName == dataLengthName)
    let cn2 := match dlOpt with
      | some dl => cn1.map (Option.map (patchChannel ChannelType.MaxLength dl.index))
      | none => cn1
    ({ g with
        filePosition := pos,
        linkList := (List.range linkCount).map (fun i => g.linkList.getD i 0),
        cnList := cn2,
        nofSamplesPosition := samplesPos,
        nofDataPosition := dataPos,
        nofInvalidPosition := invalidPos }, f8)

/-- Writing one group of a hierarchy (a list of groups): only the written
group's state changes — `Cg4Block::Write` has no access to the other
groups. -/
def writeGroupAt (h : List Cg4Block) (i pos : Nat) (f : File) :
    List Cg4Block × File :=
  match h.get? i with
  | none => (h, f)
  | some g =>
    let r := g.writeBlock pos f
    (h.set i r.1, r.2)

/-- An address lies in a recorded patch range: the position must be
non-zero (recorded) and the address within `len` bytes of it. -/
def patchHit (p len a : Nat) : Prop := 0 < p ∧ p ≤ a ∧ a < p + len

/-- Modelled from the spec: the channel's own internal-layout step (§4.2
step 2, "delegate to the channel's own internal-layout step passing the
running byte offset"); it records the byte offset on the channel. -/
def Cn4Block.prepareForWriting (c : Cn4Block) (offset : Nat) : Cn4Block :=
  match c with
  | .node d cx => .node { d with byteOffset := offset } cx

/-- `Cn4Block::SetInvalidOffset` as used by the group layout loop. -/
def Cn4Block.setInvalidOffset (c : Cn4Block) (o : Nat) : Cn4Block :=
  match c with
  | .node d cx => .node { d with invalidOffset := o } cx

/-- The channel loop of `Cg4Block::PrepareForWriting` (cg4block.cpp:455-467)
over `cn_list_`, threading the accumulators `byte_offset`,
`nof_data_bytes_` and `invalid_bit_offset`; returns the updated list and
the three accumulators. -/
def prepareChannels :
    List (Option Cn4Block) → Nat → Nat → Nat →
      List (Option Cn4Block) × Nat × Nat × Nat
  | [], byteOffset, dataBytes, invalidBit => ([], byteOffset, dataBytes, invalidBit)
  | none :: rest, byteOffset, dataBytes, invalidBit =>
      let r := prepareChannels rest byteOffset dataBytes invalidBit
      (none :: r.1, r.2)
  | some ch :: rest, byteOffset, dataBytes, invalidBit =>
      let ch1 := ch.prepareForWriting byteOffset
      let dataBytes1 := dataBytes + ch1.dataBytes
      let byteOffset1 := byteOffset + ch1.dataBytes
      let p : Cn4Block × Nat :=
        if ch1.flags &&& CnFlag.InvalidValid ≠ 0 then
          (ch1.setInvalidOffset invalidBit, invalidBit + 1)
        else (ch1, invalidBit)
      let r := prepareChannels rest byteOffset1 dataBytes1 p.2
      (some p.1 :: r.1, r.2)

/-- `Cg4Block::PrepareForWriting` (cg4block.cpp:440-483): VLSD groups clear
the layout; otherwise run the channel loop, derive `nof_invalid_bytes_`
from the bit counter with the source's rounding, and size the sample
buffer to `nof_invalid_bytes_ + nof_data_bytes_` (cleared when 0). -/
def Cg4Block.prepareForWriting (g : Cg4Block) : Cg4Block :=
  if g.flags &&& CgFlag.VlsdChannel ≠ 0 then
    { g with nofDataBytes := 0, nofInvalidBytes := 0, sampleBufferSize := 0 }
  else
    let r := prepareChannels g.cnList 0 0 0
    let dataBytes := r.2.2.1
    let invalidBit := r.2.2.2
    let invalidBytes :=
      if invalidBit = 0 then 0
      else if invalidBit % 8 > 0 then invalidBit / 8 + 1
      else invalidBit / 8
    { g with
      cnList := r.1,
      nofDataBytes := dataBytes,
      nofInvalidBytes := invalidBytes,
      sampleBufferSize := invalidBytes + dataBytes }

/-- Spec-side helper: invalid-bit positions of the invalid-capable channels
of a list, in declaration order. -/
def invalidOffsets : List (Option Cn4Block) → List Nat
  | [] => []
  | none :: rest => invalidOffsets rest
  | some c :: rest =>
      if c.flags &&& CnFlag.InvalidValid ≠ 0 then
        c.invalidOffset :: invalidOffsets rest
      else invalidOffsets rest

/-- Spec-side helper: the number of invalid-capable channels of a list. -/
def invalidCount : List (Option Cn4Block) → Nat
  | [] => 0
  | none :: rest => invalidCount rest
  | some c :: rest =>
      (if c.flags &&& CnFlag.InvalidValid ≠ 0 then 1 else 0) + invalidCount rest

/-- Spec-side helper: `(byte offset, width)` of each (non-null) channel of
a list, in declaration order. -/
def layoutOffsets : List (Option Cn4Block) → List (Nat × Nat)
  | [] => []
  | none :: rest => layoutOffsets rest
  | some c :: rest => (c.byteOffset, c.dataBytes) :: layoutOffsets rest

/-- Spec-side helper: the widths of the (non-null) channels of a list. -/
def channelWidths : List (Option Cn4Block) → List Nat
  | [] => []
  | none :: rest => channelWidths rest
  | some c :: rest => c.dataBytes :: channelWidths rest

/-- Spec-side helper: the layout the spec prescribes — each width receives
the running byte offset starting at `b`. -/
def runningLayout : List Nat → Nat → List (Nat × Nat)
  | [], _ => []
  | w :: ws, b => (b, w) :: runningLayout ws (b + w)

/-- Witness group for the layout claims (spec scenario A): widths 4, 2, 1;
the first two channels are invalid-capable. -/
def witG5 : Cg4Block :=
  { emptyCg with
    cnList := [
      some (.node { chd 100 ChannelType.Master with
        dataBytes := 4, flags := CnFlag.InvalidValid } []),
      some (.node { chd 101 ChannelType.FixedLength with
        dataBytes := 2, flags := CnFlag.InvalidValid } []),
      some (.node { chd 102 ChannelType.FixedLength with
        dataBytes := 1 } [])] }

/-- C6 counterexample group: a 4-byte top-level channel carrying a 2-byte
composition child whose byte offset starts at the sentinel value 77. -/
def cexG6 : Cg4Block :=
  { emptyCg with
    cnList := [some (.node { chd 110 ChannelType.FixedLength with
      dataBytes := 4 }
      [.node { chd 111 ChannelType.FixedLength with
        dataBytes := 2, byteOffset := 77 } []])] }

/-- An all-zero file for the concrete write scenarios. -/
def witF : File := fun _ => 0

/-- C3 counterexample, group A: a VLSD group with no channels (as the
source's own comment notes, "This group may not contain any channels"). -/
def cexA3 : Cg4Block := { emptyCg with flags := CgFlag.VlsdChannel }

/-- C3 counterexample, group B: holds the variable-length-referencing
channel, with no payload link yet. -/
def cexB3 : Cg4Block :=
  { emptyCg with cnList := [some (.node (chd 200 ChannelType.VariableLength) [])] }

/-- C3 counterexample hierarchy. -/
def cexH3 : List Cg4Block := [cexA3, cexB3]

/-- C8 counterexample, group A: contains the channel named `.DataLength`
whose block index is 5000. -/
def cexA8 : Cg4Block :=
  { emptyCg with
    cnList := [some (.node { chd 5000 ChannelType.FixedLength with
      name := dataLengthName } [])] }

/-- C8 counterexample, group B: holds the max-length-referencing channel,
with no link yet. -/
def cexB8 : Cg4Block :=
  { emptyCg with cnList := [some (.node (chd 300 ChannelType.MaxLength) [])] }

/-- C8 counterexample hierarchy. -/
def cexH8 : List Cg4Block := [cexA8, cexB8]

/-- C3 witness group: a VLSD group carrying a `VariableLength` channel. -/
def witG3 : Cg4Block :=
  { emptyCg with
    flags := CgFlag.VlsdChannel,
    cnList := [some (.node (chd 60 ChannelType.VariableLength) [])] }

/-- The C3 witness channel after the write patched its link to 555. -/
def cWit3 : Cn4Block :=
  .node { chd 60 ChannelType.VariableLength with dataLink := 555 } []

/-- C8 witness group (non-VLSD): a `.DataLength` channel at block index
5000 next to a `MaxLength` channel. -/
def witG8 : Cg4Block :=
  { emptyCg with
    cnList := [
      some (.node { chd 5000 ChannelType.FixedLength with
        name := dataLengthName } []),
      some (.node (chd 70 ChannelType.MaxLength) [])] }

/-- The `.DataLength` channel of `witG8`. -/
def dlWit8 : Cn4Block :=
  .node { chd 5000 ChannelType.FixedLength with name := dataLengthName } []

/-- The C8 witness channel after the write patched its link to 5000. -/
def cWit8 : Cn4Block :=
  .node { chd 70 ChannelType.MaxLength with dataLink := 5000 } []

/-- C4 witness group: a VLSD group (so all three patch positions get
recorded at first write). -/
def cwG4 : Cg4Block := { emptyCg with flags := CgFlag.VlsdChannel }

/-- C4 witness update states: the group as written, with new counter
values between the two update writes. -/
def cwGs4 : List Cg4Block :=
  [{ (cwG4.writeBlock 64 witF).1 with
     nofSamples := 5,
     nofDataBytes := 40 },
   { (cwG4.writeBlock 64 witF).1 with
     nofSamples := 9,
     nofDataBytes := 81,
     nofInvalidBytes := 1 }]

/-- Witness group for the replay-cursor claims: one declared sample,
fixed-length records of 2 bytes. -/
def witG2 : Cg4Block := { emptyCg with nofSamples := 1, nofDataBytes := 2 }

/-- Witness group for the partial-record claim: fixed-length records of
8 bytes, 5 declared samples. -/
def witG9 : Cg4Block := { emptyCg with nofSamples := 5, nofDataBytes := 8 }

/-- Witness group for the VLSD-counter claim: a VLSD group whose stored
64-bit cumulative size is `3 * 2 ^ 32 + 9` (`invalid = 3`, `data = 9`). -/
def witG7 : Cg4Block :=
  { emptyCg with
    flags := CgFlag.VlsdChannel,
    nofDataBytes := 9,
    nofInvalidBytes := 3 }

end Mdf

namespace Mdf

/-- Claim C10: a reference that is not a concrete `Cn4Block` (the dynamic
downcast fails) makes `GetXChannel` return null, regardless of any Master or
VirtualMaster channels present in the group. -/
theorem getXChannel_non_cn4 (g : Cg4Block) :
    g.getXChannel IChannelRef.other = none := rfl

/-- The master-channel scan of `GetXChannel` (a `find_if` over `cn_list_`)
computes the spec-side `firstMasterOpt` of the same list. -/
theorem masterScan_eq_firstMasterOpt (l : List (Option Cn4Block)) :
    (match l.find? (fun p =>
        match p with
        | none => false
        | some c => c.chType == ChannelType.Master
            || c.chType == ChannelType.VirtualMaster) with
     | some p => p
     | none => none) = firstMasterOpt l := by
  induction l with
  | nil => rfl
  | cons p rest ih =>
    match p with
    | none => simpa [List.find?, firstMasterOpt] using ih
    | some c =>
      by_cases h : c.chType = ChannelType.Master ∨ c.chType = ChannelType.VirtualMaster
      · have hb : (c.chType == ChannelType.Master
            || c.chType == ChannelType.VirtualMaster) = true := by
          rcases h with h | h <;> simp [h]
        simp [List.find?, firstMasterOpt, h, hb]
      · have hb : (c.chType == ChannelType.Master
            || c.chType == ChannelType.VirtualMaster) = false := by
          push_neg at h
          simp [h.1, h.2]
        push_neg at h
        simpa [List.find?, firstMasterOpt, h.1, h.2, hb] using ih

/-- Claim C1 (amended: the lookups scan the group's top-level channel list
`cn_list_`, not the flattened list): if the reference carries a 3-entry
axis-link record whose middle entry is the group's identity and whose third
entry is non-zero and matches the identity of some channel of the top-level
list, `GetXChannel` returns such a channel (regardless of any Master
channel); otherwise it returns the first `Master`/`VirtualMaster` channel
of the top-level list, and `none` when there is none. -/
theorem getXChannel_resolution (g : Cg4Block) (r : Cn4Block) :
    (∀ a t, r.xAxisLinkList = [a, g.index, t] → t ≠ 0 →
        (∃ c, some c ∈ g.cnList ∧ c.index = t) →
        ∃ c, g.getXChannel (.cn4 r) = some c ∧ some c ∈ g.cnList ∧ c.index = t) ∧
    ((∀ a t, r.xAxisLinkList = [a, g.index, t] → t ≠ 0 →
        ∀ c, some c ∈ g.cnList → c.index ≠ t) →
      g.getXChannel (.cn4 r) = firstMasterOpt g.cnList) := by
  constructor
  · intro a t hx ht hres
    obtain ⟨c, hc, hct⟩ := hres
    have hsome : (g.cnList.find? (fun p =>
        match p with
        | none => false
        | some c => c.index == t)).isSome := by
      refine List.find?_isSome.mpr ⟨some c, hc, ?_⟩
      simp [hct]
    obtain ⟨p0, hp0⟩ := Option.isSome_iff_exists.mp hsome
    have hmem : p0 ∈ g.cnList := List.mem_of_find?_eq_some hp0
    have hpred := List.find?_some hp0
    cases p0 with
    | none => simp at hpred
    | some c' =>
      have hidx : c'.index = t := by simpa using hpred
      refine ⟨c', ?_, hmem, hidx⟩
      simp only [Cg4Block.getXChannel, hx]
      have hcond : (([a, g.index, t] : List Nat).length = 3 ∧
          ([a, g.index, t] : List Nat).getD 1 0 = g.index ∧
          ([a, g.index, t] : List Nat).getD 2 0 ≠ 0) := by
        simpa using ht
      rw [if_pos hcond]
      rw [show ([a, g.index, t] : List Nat).getD 2 0 = t from rfl]
      rw [hp0]
  · intro h
    simp only [Cg4Block.getXChannel]
    by_cases hcond : (r.xAxisLinkList.length = 3 ∧
        r.xAxisLinkList.getD 1 0 = g.index ∧ r.xAxisLinkList.getD 2 0 ≠ 0)
    · obtain ⟨a, b, t, habc⟩ := List.length_eq_three.mp hcond.1
      have hb : b = g.index := by
        have := hcond.2.1
        simpa [habc] using this
      have ht : t ≠ 0 := by
        have := hcond.2.2
        simpa [habc] using this
      have hnone : g.cnList.find? (fun p =>
          match p with
          | none => false
          | some c => c.index == r.xAxisLinkList.getD 2 0) = none := by
        refine List.find?_eq_none.mpr ?_
        intro x hxmem
        match x with
        | none => simp
        | some c =>
          have := h a t (by rw [habc, hb]) ht c hxmem
          simp [habc, this]
      rw [if_pos hcond, hnone]
      exact masterScan_eq_firstMasterOpt g.cnList
    · rw [if_neg hcond]
      exact masterScan_eq_firstMasterOpt g.cnList

/-- Witness for `getXChannel_resolution`: in `witG1` the axis-link record
`[5, 10, 42]` of `witR1` resolves to the channel with identity 42 even
though a Master channel is first in the list. -/
theorem getXChannel_resolution_witness :
    ∃ c, witG1.getXChannel (.cn4 witR1) = some c ∧
      some c ∈ witG1.cnList ∧ c.index = 42 :=
  (getXChannel_resolution witG1 witR1).1 5 42 rfl (by decide)
    ⟨Cn4Block.node (chd 42 ChannelType.FixedLength) [],
      List.Mem.tail _ (List.Mem.head _), rfl⟩

/-- Claim C1 counterexample: in `cexG1` the only `Master` channel lives in
the *flattened* channel list (it is a composition child), the reference has
no axis-link record, yet `GetXChannel` returns `none` — the fallback scan
inspects only the top-level `cn_list_`, contradicting the claim that the
first Master of the flattened list is returned. -/
theorem getXChannel_flattened_master_cex :
    cexR1.xAxisLinkList = [] ∧
    (firstMasterIn cexG1.channels).isSome = true ∧
    cexG1.getXChannel (.cn4 cexR1) = none :=
  ⟨rfl, rfl, rfl⟩

/-- Claim C2: `ReadDataRecord` delivers a record to the observer exactly
when `sample_cursor < sample_count`; the cursor never exceeds the count;
and the bytes of the record are consumed just the same when the cursor is
exhausted (trailing data is discarded silently). -/
theorem readDataRecord_cursor_invariant (g : Cg4Block) (s : List Nat)
    (h : g.sampleCursor ≤ g.nofSamples) :
    (g.readDataRecord s).2.2.sampleCursor ≤ g.nofSamples ∧
    ((g.readDataRecord s).2.1.isSome = true ↔ g.sampleCursor < g.nofSamples) ∧
    (g.readDataRecord s).1 =
      (({ g with sampleCursor := g.nofSamples } : Cg4Block).readDataRecord s).1 := by
  by_cases hv : g.flags &&& CgFlag.VlsdChannel ≠ 0 <;>
    by_cases hc : g.sampleCursor < g.nofSamples <;>
      simp [Cg4Block.readDataRecord, hv, hc, Nat.succ_le_of_lt, h]

/-- Witness for `readDataRecord_cursor_invariant` on a concrete group and
stream. -/
theorem readDataRecord_cursor_invariant_witness :
    (witG2.readDataRecord [7, 8, 9]).2.2.sampleCursor ≤ witG2.nofSamples ∧
    ((witG2.readDataRecord [7, 8, 9]).2.1.isSome = true ↔
      witG2.sampleCursor < witG2.nofSamples) ∧
    (witG2.readDataRecord [7, 8, 9]).1 =
      (({ witG2 with sampleCursor := witG2.nofSamples } :
        Cg4Block).readDataRecord [7, 8, 9]).1 :=
  readDataRecord_cursor_invariant witG2 [7, 8, 9] (by decide)

/-- Claim C9: whenever `sample_cursor < sample_count`, `ReadDataRecord`
delivers the record and increments the cursor for every input stream — in
particular when the stream holds fewer bytes than one record requires, so a
partial final record is still delivered and counted. -/
theorem readDataRecord_increments_on_partial (g : Cg4Block) (s : List Nat)
    (h : g.sampleCursor < g.nofSamples) :
    (g.readDataRecord s).2.2.sampleCursor = g.sampleCursor + 1 ∧
    (g.readDataRecord s).2.1.isSome = true := by
  by_cases hv : g.flags &&& CgFlag.VlsdChannel ≠ 0 <;>
    simp [Cg4Block.readDataRecord, hv, h]

/-- Witness for `readDataRecord_increments_on_partial`: the stream holds 3
bytes although a full record requires 8, yet the read counts a sample. -/
theorem readDataRecord_increments_on_partial_witness :
    (witG9.readDataRecord [1, 2, 3]).1 = 3 ∧
    witG9.nofDataBytes + witG9.nofInvalidBytes = 8 ∧
    (witG9.readDataRecord [1, 2, 3]).2.2.sampleCursor = witG9.sampleCursor + 1 ∧
    (witG9.readDataRecord [1, 2, 3]).2.1.isSome = true :=
  ⟨rfl, rfl, readDataRecord_increments_on_partial witG9 [1, 2, 3] (by decide)⟩

/-- Claim C7: for a VLSD group, `UpdateVlsdSize` reconstructs the 64-bit
cumulative size `X` from the `uint32` halves (`(invalid_bytes <<< 32) +
data_bytes` recovers any stored `X < 2 ^ 64`), consumes one length-prefixed
record (4-byte prefix plus payload length), adds the consumed bytes to `X`,
stores the sum back as low half in `data_bytes` and high half in
`invalid_bytes`, and increments `sample_count` by one. -/
theorem updateVlsdSize_packing (g : Cg4Block) (s : List Nat)
    (hv : g.flags &&& CgFlag.VlsdChannel ≠ 0)
    (hs : 4 ≤ s.length)
    (hfit : g.vlsdSizeStored + (4 + decodeLE (s.take 4)) < 2 ^ 64) :
    (∀ X < 2 ^ 64, Cg4Block.vlsdSizeStored
        { g with nofDataBytes := X % 2 ^ 32, nofInvalidBytes := X / 2 ^ 32 } = X) ∧
    (g.updateVlsdSize s).1 = 4 + decodeLE (s.take 4) ∧
    (g.updateVlsdSize s).2.vlsdSizeStored =
      g.vlsdSizeStored + (4 + decodeLE (s.take 4)) ∧
    (g.updateVlsdSize s).2.nofDataBytes =
      (g.vlsdSizeStored + (4 + decodeLE (s.take 4))) % 2 ^ 32 ∧
    (g.updateVlsdSize s).2.nofInvalidBytes =
      (g.vlsdSizeStored + (4 + decodeLE (s.take 4))) / 2 ^ 32 ∧
    (g.updateVlsdSize s).2.nofSamples = g.nofSamples + 1 := by
  have hrecover : ∀ X : Nat, X < 2 ^ 64 → Cg4Block.vlsdSizeStored
      { g with nofDataBytes := X % 2 ^ 32, nofInvalidBytes := X / 2 ^ 32 } = X := by
    intro X _
    simp only [Cg4Block.vlsdSizeStored, Nat.shiftLeft_eq]
    omega
  have hlen : (s.take 4).length = 4 := by
    simp only [List.length_take]
    omega
  have hcount : (s.take 4).length + (if decodeLE (s.take 4) > 0
      then decodeLE (s.take 4) else 0) = 4 + decodeLE (s.take 4) := by
    rw [hlen]
    by_cases h0 : decodeLE (s.take 4) > 0
    · simp [h0]
    · simp only [gt_iff_lt, Nat.pos_iff_ne_zero, ne_eq, not_not] at h0
      simp [h0]
  have hmask : ∀ V : Nat, V &&& 0xFFFFFFFF = V % 2 ^ 32 := by
    intro V
    have h := Nat.and_pow_two_sub_one_eq_mod V 32
    norm_num at h ⊢
    exact h
  have hshr : ∀ V : Nat, V >>> 32 = V / 2 ^ 32 := fun V =>
    Nat.shiftRight_eq_div_pow V 32
  simp only [Cg4Block.vlsdSizeStored, Nat.shiftLeft_eq] at hfit
  refine ⟨hrecover, ?_, ?_, ?_, ?_, ?_⟩ <;>
    simp only [Cg4Block.updateVlsdSize, Cg4Block.vlsdSizeStored, if_pos hv,
      hcount, hmask, hshr, Nat.shiftLeft_eq] <;>
    omega

/-- Witness for `updateVlsdSize_packing`: skipping a record with length
prefix 2 consumes 6 bytes, grows the stored 64-bit counter by 6, and counts
one sample. -/
theorem updateVlsdSize_packing_witness :
    (witG7.updateVlsdSize [2, 0, 0, 0, 9, 9]).1 = 6 ∧
    (witG7.updateVlsdSize [2, 0, 0, 0, 9, 9]).2.vlsdSizeStored =
      witG7.vlsdSizeStored + 6 ∧
    (witG7.updateVlsdSize [2, 0, 0, 0, 9, 9]).2.nofSamples = 1 := by
  have h := updateVlsdSize_packing witG7 [2, 0, 0, 0, 9, 9]
    (by decide) (by decide) (by decide)
  refine ⟨?_, ?_, ?_⟩
  · rw [h.2.1]
    decide
  · rw [h.2.2.1]
    decide
  · rw [h.2.2.2.2.2]
    decide

/-- The channel loop of the layout engine, characterised: offsets are the
running sums of the widths starting at `byte_offset`; invalid-bit
positions are consecutive starting at `invalid_bit_offset`; the
`nof_data_bytes_` accumulator grows by the total width; the bit counter
grows by the number of invalid-capable channels. -/
theorem prepareChannels_spec (l : List (Option Cn4Block)) :
    ∀ b d i : Nat,
      layoutOffsets (prepareChannels l b d i).1 = runningLayout (channelWidths l) b ∧
      invalidOffsets (prepareChannels l b d i).1 = List.range' i (invalidCount l) ∧
      (prepareChannels l b d i).2.2.1 = d + (channelWidths l).sum ∧
      (prepareChannels l b d i).2.2.2 = i + invalidCount l := by
  induction l with
  | nil =>
    intro b d i
    simp [prepareChannels, layoutOffsets, invalidOffsets, channelWidths,
      invalidCount, runningLayout]
  | cons p rest ih =>
    intro b d i
    match p with
    | none =>
      simpa [prepareChannels, layoutOffsets, invalidOffsets, channelWidths,
        invalidCount] using ih b d i
    | some ch =>
      match ch with
      | .node dd cx =>
        by_cases hcap : dd.flags &&& CnFlag.InvalidValid ≠ 0
        · have h := ih (b + dd.dataBytes) (d + dd.dataBytes) (i + 1)
          refine ⟨?_, ?_, ?_, ?_⟩
          · simpa [prepareChannels, layoutOffsets, channelWidths,
              runningLayout, Cn4Block.prepareForWriting,
              Cn4Block.setInvalidOffset, Cn4Block.flags, Cn4Block.dataBytes,
              Cn4Block.byteOffset, Cn4Block.data, hcap] using h.1
          · have hr : List.range' i (invalidCount (some (Cn4Block.node dd cx) :: rest)) =
                i :: List.range' (i + 1) (invalidCount rest) := by
              have : invalidCount (some (Cn4Block.node dd cx) :: rest) =
                  invalidCount rest + 1 := by
                simp [invalidCount, Cn4Block.flags, Cn4Block.data, hcap]
                omega
              rw [this]
              rfl
            rw [hr]
            simpa [prepareChannels, invalidOffsets, Cn4Block.prepareForWriting,
              Cn4Block.setInvalidOffset, Cn4Block.flags, Cn4Block.invalidOffset,
              Cn4Block.data, Cn4Block.dataBytes, hcap] using h.2.1
          · have := h.2.2.1
            simp only [prepareChannels, Cn4Block.prepareForWriting,
              Cn4Block.dataBytes, Cn4Block.flags, Cn4Block.data] at *
            simp [channelWidths, Cn4Block.dataBytes, Cn4Block.data, hcap, this]
            omega
          · have := h.2.2.2
            simp only [prepareChannels, Cn4Block.prepareForWriting,
              Cn4Block.dataBytes, Cn4Block.flags, Cn4Block.data] at *
            simp [invalidCount, Cn4Block.flags, Cn4Block.data, hcap, this]
            omega
        · have h := ih (b + dd.dataBytes) (d + dd.dataBytes) i
          refine ⟨?_, ?_, ?_, ?_⟩
          · simpa [prepareChannels, layoutOffsets, channelWidths,
              runningLayout, Cn4Block.prepareForWriting, Cn4Block.flags,
              Cn4Block.dataBytes, Cn4Block.byteOffset, Cn4Block.data,
              hcap] using h.1
          · simpa [prepareChannels, invalidOffsets, invalidCount,
              Cn4Block.prepareForWriting, Cn4Block.flags,
              Cn4Block.invalidOffset, Cn4Block.data, Cn4Block.dataBytes,
              hcap] using h.2.1
          · have := h.2.2.1
            simp only [prepareChannels, Cn4Block.prepareForWriting,
              Cn4Block.dataBytes, Cn4Block.flags, Cn4Block.data] at *
            simp [channelWidths, Cn4Block.dataBytes, Cn4Block.data, hcap, this]
            omega
          · have := h.2.2.2
            simp only [prepareChannels, Cn4Block.prepareForWriting,
              Cn4Block.dataBytes, Cn4Block.flags, Cn4Block.data] at *
            simp [invalidCount, Cn4Block.flags, Cn4Block.data, hcap, this]

theorem runningLayout_length (ws : List Nat) :
    ∀ b : Nat, (runningLayout ws b).length = ws.length := by
  induction ws with
  | nil => intro b; rfl
  | cons w rest ih => intro b; simp [runningLayout, ih]

theorem runningLayout_offset_ge (ws : List Nat) :
    ∀ b i : Nat, i < ws.length → b ≤ ((runningLayout ws b).getD i (0, 0)).1 := by
  induction ws with
  | nil => intro b i h; simp at h
  | cons w rest ih =>
    intro b i h
    match i with
    | 0 => simp [runningLayout]
    | i + 1 =>
      have := ih (b + w) i (by simpa using h)
      simp only [runningLayout, List.getD_cons_succ]
      omega

/-- The running layout of a width list partitions `[b, b + sum)`: every
point of the range lies in exactly one channel's byte interval. -/
theorem runningLayout_partition (ws : List Nat) :
    ∀ b x : Nat, b ≤ x → x < b + ws.sum →
      ∃! i, i < (runningLayout ws b).length ∧
        ((runningLayout ws b).getD i (0, 0)).1 ≤ x ∧
        x < ((runningLayout ws b).getD i (0, 0)).1 +
          ((runningLayout ws b).getD i (0, 0)).2 := by
  induction ws with
  | nil =>
    intro b x hbx hx
    simp at hx
    omega
  | cons w rest ih =>
    intro b x hbx hx
    by_cases hfirst : x < b + w
    · refine ⟨0, ⟨by simp [runningLayout], by simpa [runningLayout] using hbx,
        by simpa [runningLayout] using hfirst⟩, ?_⟩
      intro j hj
      match j with
      | 0 => rfl
      | j + 1 =>
        exfalso
        obtain ⟨hjlen, hj1, hj2⟩ := hj
        have hlen : j < rest.length := by
          have := runningLayout_length rest (b + w)
          simp only [runningLayout, List.length_cons] at hjlen
          omega
        have hge := runningLayout_offset_ge rest (b + w) j hlen
        simp only [runningLayout, List.getD_cons_succ] at hj1
        omega
    · have hx' : x < (b + w) + rest.sum := by
        simp only [List.sum_cons] at hx
        omega
      obtain ⟨i, hi, huniq⟩ := ih (b + w) x (by omega) hx'
      refine ⟨i + 1, ?_, ?_⟩
      · refine ⟨?_, ?_, ?_⟩
        · simp only [runningLayout, List.length_cons]
          omega
        · simpa [runningLayout] using hi.2.1
        · simpa [runningLayout] using hi.2.2
      · intro j hj
        match j with
        | 0 =>
          exfalso
          obtain ⟨-, -, hj2⟩ := hj
          simp only [runningLayout, List.getD_cons_zero] at hj2
          omega
        | j + 1 =>
          obtain ⟨hjlen, hj1, hj2⟩ := hj
          have : j = i := by
            refine huniq j ⟨?_, ?_, ?_⟩
            · simp only [runningLayout, List.length_cons] at hjlen
              omega
            · simpa [runningLayout] using hj1
            · simpa [runningLayout] using hj2
          omega

/-- Claim C5: `PrepareForWriting` on a non-VLSD group assigns invalid-bit
positions `0..k-1` in declaration order exactly to the `k` invalid-capable
channels of the channel list, and sets `invalid_bytes = ceil(k / 8)` (0
when `k = 0`). -/
theorem prepareForWriting_invalid_bits (g : Cg4Block)
    (hv : g.flags &&& CgFlag.VlsdChannel = 0) :
    invalidOffsets (g.prepareForWriting).cnList =
      List.range (invalidCount g.cnList) ∧
    (g.prepareForWriting).nofInvalidBytes = (invalidCount g.cnList + 7) / 8 := by
  have hspec := prepareChannels_spec g.cnList 0 0 0
  unfold Cg4Block.prepareForWriting
  rw [if_neg (by simp [hv])]
  constructor
  · have := hspec.2.1
    rw [List.range_eq_range']
    simpa using this
  · have hbit := hspec.2.2.2
    simp only [hbit]
    have : invalidCount g.cnList = 0 + invalidCount g.cnList := by omega
    rw [← this]
    split_ifs <;> omega

/-- Witness for `prepareForWriting_invalid_bits` on the scenario-A group
(two invalid-capable channels → bits 0 and 1, one invalid byte). -/
theorem prepareForWriting_invalid_bits_witness :
    invalidOffsets (witG5.prepareForWriting).cnList =
      List.range (invalidCount witG5.cnList) ∧
    (witG5.prepareForWriting).nofInvalidBytes =
      (invalidCount witG5.cnList + 7) / 8 :=
  prepareForWriting_invalid_bits witG5 rfl

/-- Claim C6 (amended: the loop runs over the top-level `cn_list_`;
composite children are laid out inside their parent channel, not by the
group loop): channels are traversed in declaration order, each receives
the running byte offset, offset and `data_bytes` advance by the channel's
width, and the offsets partition `[0, data_bytes)` without gaps or
overlaps. -/
theorem prepareForWriting_layout (g : Cg4Block)
    (hv : g.flags &&& CgFlag.VlsdChannel = 0) :
    layoutOffsets (g.prepareForWriting).cnList =
      runningLayout (channelWidths g.cnList) 0 ∧
    (g.prepareForWriting).nofDataBytes = (channelWidths g.cnList).sum ∧
    ∀ x < (g.prepareForWriting).nofDataBytes,
      ∃! i, i < (layoutOffsets (g.prepareForWriting).cnList).length ∧
        ((layoutOffsets (g.prepareForWriting).cnList).getD i (0, 0)).1 ≤ x ∧
        x < ((layoutOffsets (g.prepareForWriting).cnList).getD i (0, 0)).1 +
          ((layoutOffsets (g.prepareForWriting).cnList).getD i (0, 0)).2 := by
  have hspec := prepareChannels_spec g.cnList 0 0 0
  have h1 : layoutOffsets (g.prepareForWriting).cnList =
      runningLayout (channelWidths g.cnList) 0 := by
    unfold Cg4Block.prepareForWriting
    rw [if_neg (by simp [hv])]
    exact hspec.1
  have h2 : (g.prepareForWriting).nofDataBytes = (channelWidths g.cnList).sum := by
    unfold Cg4Block.prepareForWriting
    rw [if_neg (by simp [hv])]
    simpa using hspec.2.2.1
  refine ⟨h1, h2, ?_⟩
  intro x hx
  rw [h1]
  rw [h2] at hx
  exact runningLayout_partition (channelWidths g.cnList) 0 x (Nat.zero_le x)
    (by simpa using hx)

/-- Witness for `prepareForWriting_layout` on the scenario-A group: widths
4, 2, 1 produce offsets 0, 4, 6 and `data_bytes = 7`. -/
theorem prepareForWriting_layout_witness :
    layoutOffsets (witG5.prepareForWriting).cnList = [(0, 4), (4, 2), (6, 1)] ∧
    (witG5.prepareForWriting).nofDataBytes = 7 ∧
    ∀ x < (witG5.prepareForWriting).nofDataBytes,
      ∃! i, i < (layoutOffsets (witG5.prepareForWriting).cnList).length ∧
        ((layoutOffsets (witG5.prepareForWriting).cnList).getD i (0, 0)).1 ≤ x ∧
        x < ((layoutOffsets (witG5.prepareForWriting).cnList).getD i (0, 0)).1 +
          ((layoutOffsets (witG5.prepareForWriting).cnList).getD i (0, 0)).2 :=
  ⟨by decide, by decide, (prepareForWriting_layout witG5 rfl).2.2⟩

/-- Claim C6 counterexample: in `cexG6` the flattened channel list has
widths `[4, 2]`, but after `PrepareForWriting` the group's `data_bytes` is
4 and the composition child kept its sentinel byte offset 77 — the loop
neither offsets nor counts composite children, contradicting the claim
that the *flattened* list is traversed and that every flattened channel
receives the running offset. -/
theorem prepareForWriting_flattened_cex :
    ((cexG6.prepareForWriting).channels.map Cn4Block.dataBytes) = [4, 2] ∧
    (cexG6.prepareForWriting).nofDataBytes = 4 ∧
    ((cexG6.prepareForWriting).channels.map Cn4Block.byteOffset) = [0, 77] :=
  ⟨by decide, by decide, by decide⟩

theorem patchChannel_chType (t : ChannelType) (v : Nat) (c : Cn4Block) :
    (patchChannel t v c).chType = c.chType := by
  cases c with
  | node d cx =>
    simp only [patchChannel, Cn4Block.chType, Cn4Block.data]
    split <;> rfl

theorem patchChannel_index (t : ChannelType) (v : Nat) (c : Cn4Block) :
    (patchChannel t v c).index = c.index := by
  cases c with
  | node d cx =>
    simp only [patchChannel, Cn4Block.index, Cn4Block.data]
    split <;> rfl

theorem patchChannel_cnName (t : ChannelType) (v : Nat) (c : Cn4Block) :
    (patchChannel t v c).cnName = c.cnName := by
  cases c with
  | node d cx =>
    simp only [patchChannel, Cn4Block.cnName, Cn4Block.data]
    split <;> rfl

theorem patchChannel_dataLink (t : ChannelType) (v : Nat) (c : Cn4Block) :
    (patchChannel t v c).dataLink = if c.chType = t then v else c.dataLink := by
  cases c with
  | node d cx =>
    simp only [patchChannel, Cn4Block.dataLink, Cn4Block.chType, Cn4Block.data]
    split <;> simp_all

mutual

theorem addCxChannels_patch (t : ChannelType) (v : Nat) :
    ∀ c : Cn4Block,
      addCxChannels (patchChannel t v c) = (addCxChannels c).map (patchChannel t v)
  | .node d cx => by
    simp only [patchChannel, addCxChannels]
    exact addCxList_patch t v cx

theorem addCxList_patch (t : ChannelType) (v : Nat) :
    ∀ l : List Cn4Block,
      addCxList (patchChannelList t v l) = (addCxList l).map (patchChannel t v)
  | [] => rfl
  | c :: rest => by
    simp only [patchChannelList, addCxList, List.map_append, List.map_cons]
    rw [addCxChannels_patch t v c, addCxList_patch t v rest]

end

theorem flatChannels_patch (t : ChannelType) (v : Nat)
    (l : List (Option Cn4Block)) :
    flatChannels (l.map (Option.map (patchChannel t v))) =
      (flatChannels l).map (patchChannel t v) := by
  induction l with
  | nil => rfl
  | cons p rest ih =>
    cases p with
    | none => simpa [flatChannels] using ih
    | some c =>
      simp only [flatChannels, List.map_cons, Option.map_some', List.flatten_cons,
        List.map_append] at *
      rw [addCxChannels_patch t v c, ih]

theorem find?_cnName_map_patch (t : ChannelType) (v : Nat) (nm : String)
    (l : List Cn4Block) :
    (l.map (patchChannel t v)).find? (fun c => c.cnName == nm) =
      (l.find? (fun c => c.cnName == nm)).map (patchChannel t v) := by
  induction l with
  | nil => rfl
  | cons c rest ih =>
    simp only [List.map_cons, List.find?, patchChannel_cnName]
    cases h : (c.cnName == nm) <;> simp [h, ih]

/-- Claim C3 (amended: the patch reaches this group's flattened channel
list only, composite children included — not channels of other groups): on
the first write of a VLSD group, after the block is placed at `pos` the
group's identity is `pos` and every channel of this group's flattened list
whose kind is `VariableLength` has its signal data link patched to `pos`. -/
theorem write_vlsd_patches_links (g : Cg4Block) (pos : Nat) (f : File)
    (hfp : g.filePosition = 0)
    (hv : g.flags &&& CgFlag.VlsdChannel ≠ 0) :
    (g.writeBlock pos f).1.filePosition = pos ∧
    ∀ c ∈ (g.writeBlock pos f).1.channels,
      c.chType = ChannelType.VariableLength → c.dataLink = pos := by
  have hnot : ¬(g.filePosition > 0) := by simp [hfp]
  simp only [Cg4Block.writeBlock, if_neg hnot, if_pos hv]
  constructor
  · trivial
  · intro c hc hct
    simp only [Cg4Block.channels] at hc
    cases hdl : (flatChannels (g.cnList.map
        (Option.map (patchChannel ChannelType.VariableLength pos)))).find?
        (fun c => c.cnName == dataLengthName) with
    | none =>
      rw [hdl] at hc
      simp only at hc
      rw [flatChannels_patch] at hc
      obtain ⟨c0, hc0, rfl⟩ := List.mem_map.mp hc
      rw [patchChannel_chType] at hct
      rw [patchChannel_dataLink, if_pos hct]
    | some dl =>
      rw [hdl] at hc
      simp only at hc
      rw [flatChannels_patch, flatChannels_patch, List.map_map] at hc
      obtain ⟨c0, hc0, rfl⟩ := List.mem_map.mp hc
      simp only [Function.comp] at hct ⊢
      rw [patchChannel_chType, patchChannel_chType] at hct
      rw [patchChannel_dataLink, patchChannel_chType, if_neg (by rw [hct]; decide),
        patchChannel_dataLink, if_pos hct]

/-- Witness for `write_vlsd_patches_links`: writing `witG3` at position 555
sets its identity to 555 and patches its `VariableLength` channel's link
to 555. -/
theorem write_vlsd_patches_links_witness :
    (witG3.writeBlock 555 witF).1.filePosition = 555 ∧
    cWit3.dataLink = 555 := by
  have h := write_vlsd_patches_links witG3 555 witF rfl (by decide)
  refine ⟨h.1, h.2 cWit3 ?_ rfl⟩
  exact List.Mem.head _

/-- Claim C3 counterexample: in the hierarchy `[cexA3, cexB3]`, the first
write of the VLSD group `cexA3` assigns it identity 777, but the
`VariableLength` channel living in the *other* group `cexB3` keeps its
null payload link — `Write` only reaches this group's own channel list,
contradicting the claim that every variable-length-referencing channel
anywhere in the hierarchy is patched to 777. -/
theorem write_vlsd_hierarchy_cex :
    ((writeGroupAt cexH3 0 777 witF).1.map Cg4Block.filePosition) = [777, 0] ∧
    ((writeGroupAt cexH3 0 777 witF).1.map (fun g =>
      g.channels.map (fun c => c.chType == ChannelType.VariableLength))) =
      [[], [true]] ∧
    ((writeGroupAt cexH3 0 777 witF).1.map (fun g =>
      g.channels.map Cn4Block.dataLink)) = [[], [0]] :=
  ⟨by decide, by decide, by decide⟩

/-- Claim C8 (amended: both the `.DataLength` lookup and the patch reach
this group's flattened channel list only, not the entire hierarchy): on a
first write, if this group has a channel named exactly `.DataLength`, then
every channel of this group's flattened list whose kind is `MaxLength` has
its link patched to that channel's block index — whether or not the
`VariableLength` group flag is set. -/
theorem write_mlsd_patches_links (g : Cg4Block) (pos : Nat) (f : File)
    (dl : Cn4Block)
    (hfp : g.filePosition = 0)
    (hdl : g.getChannel dataLengthName = some dl) :
    ∀ c ∈ (g.writeBlock pos f).1.channels,
      c.chType = ChannelType.MaxLength → c.dataLink = dl.index := by
  have hnot : ¬(g.filePosition > 0) := by simp [hfp]
  intro c hc hct
  simp only [Cg4Block.writeBlock, if_neg hnot] at hc
  by_cases hv : g.flags &&& CgFlag.VlsdChannel ≠ 0
  · simp only [if_pos hv] at hc
    have hfind : (flatChannels (g.cnList.map
        (Option.map (patchChannel ChannelType.VariableLength pos)))).find?
        (fun c => c.cnName == dataLengthName) =
        some (patchChannel ChannelType.VariableLength pos dl) := by
      rw [flatChannels_patch, find?_cnName_map_patch]
      simp only [Cg4Block.getChannel, Cg4Block.channels] at hdl
      rw [hdl]
      rfl
    rw [hfind] at hc
    simp only [Cg4Block.channels] at hc
    rw [flatChannels_patch, flatChannels_patch, List.map_map] at hc
    obtain ⟨c0, hc0, rfl⟩ := List.mem_map.mp hc
    simp only [Function.comp] at hct ⊢
    rw [patchChannel_chType, patchChannel_chType] at hct
    rw [patchChannel_dataLink, patchChannel_chType, if_pos hct,
      patchChannel_index]
  · simp only [if_neg hv] at hc
    have hfind : (flatChannels g.cnList).find?
        (fun c => c.cnName == dataLengthName) = some dl := hdl
    rw [hfind] at hc
    simp only [Cg4Block.channels] at hc
    rw [flatChannels_patch] at hc
    obtain ⟨c0, hc0, rfl⟩ := List.mem_map.mp hc
    rw [patchChannel_chType] at hct
    rw [patchChannel_dataLink, if_pos hct]

/-- Witness for `write_mlsd_patches_links`: in the non-VLSD group `witG8`,
the `MaxLength` channel ends up linked to 5000, the block index of the
`.DataLength` channel. -/
theorem write_mlsd_patches_links_witness :
    cWit8.dataLink = 5000 ∧ dlWit8.index = 5000 := by
  have h := write_mlsd_patches_links witG8 600 witF dlWit8 rfl rfl
  refine ⟨?_, rfl⟩
  have := h cWit8 ?_ rfl
  · simpa using this
  · exact List.Mem.tail _ (List.Mem.head _)

/-- Claim C8 counterexample: in the hierarchy `[cexA8, cexB8]` the channel
named `.DataLength` (block index 5000) lives in group `cexA8`; after the
first write of `cexA8`, the `MaxLength` channel of the other group `cexB8`
still has a null link — `Write` does not reach channels of other groups,
contradicting the claim that every max-length-referencing channel gets the
link 5000. -/
theorem write_mlsd_hierarchy_cex :
    ((cexH8.map (fun g => (g.getChannel dataLengthName).isSome)) = [true, false]) ∧
    ((writeGroupAt cexH8 0 400 witF).1.map (fun g =>
      g.channels.map (fun c => c.chType == ChannelType.MaxLength))) =
      [[false], [true]] ∧
    ((writeGroupAt cexH8 0 400 witF).1.map (fun g =>
      g.channels.map Cn4Block.dataLink)) = [[0], [0]] :=
  ⟨by decide, by decide, by decide⟩

theorem encodeLE_length (w v : Nat) : (encodeLE w v).length = w := by
  simp [encodeLE]

theorem writeBytesAt_outside (f : File) (p : Nat) (bs : List Nat) (a : Nat)
    (h : a < p ∨ p + bs.length ≤ a) : writeBytesAt f p bs a = f a := by
  simp only [writeBytesAt]
  rw [if_neg]
  omega

/-- One update-mode `Write` leaves every byte outside the three recorded
patch ranges unchanged. -/
theorem writeBlock_update_frame (gu : Cg4Block) (pos : Nat) (f : File) (a : Nat)
    (hupd : 0 < gu.filePosition)
    (h1 : ¬patchHit gu.nofSamplesPosition 8 a)
    (h2 : ¬patchHit gu.nofDataPosition 4 a)
    (h3 : ¬patchHit gu.nofInvalidPosition 4 a) :
    (gu.writeBlock pos f).2 a = f a := by
  have step : ∀ (fc : File) (p w v : Nat), ¬patchHit p w a →
      (if p > 0 then writeBytesAt fc p (encodeLE w v) else fc) a = fc a := by
    intro fc p w v hp
    by_cases h0 : p > 0
    · rw [if_pos h0]
      apply writeBytesAt_outside
      rw [encodeLE_length]
      unfold patchHit at hp
      omega
    · rw [if_neg h0]
  simp only [Cg4Block.writeBlock, if_pos hupd]
  rw [step _ _ _ _ h3, step _ _ _ _ h2, step _ _ _ _ h1]

/-- Claim C4: for a group whose identity is already non-zero, `Write`
overwrites only the `sample_count` field at its recorded patch position
and — only when the `VariableLength` flag was set at first write — the low
and high 32-bit halves of the cumulative payload size at their recorded
patch positions; any number of update writes leaves every other byte of
the file byte-identical to the first write. -/
theorem write_update_frame (g : Cg4Block) (pos : Nat) (f : File)
    (gs : List Cg4Block)
    (hfp : g.filePosition = 0)
    (hd0 : g.nofDataPosition = 0) (hi0 : g.nofInvalidPosition = 0)
    (hsame : ∀ gu ∈ gs, 0 < gu.filePosition ∧
      gu.nofSamplesPosition = (g.writeBlock pos f).1.nofSamplesPosition ∧
      gu.nofDataPosition = (g.writeBlock pos f).1.nofDataPosition ∧
      gu.nofInvalidPosition = (g.writeBlock pos f).1.nofInvalidPosition) :
    (g.writeBlock pos f).1.nofSamplesPosition = pos + g.headerSize + 8 ∧
    (g.writeBlock pos f).1.nofDataPosition =
      (if g.flags &&& CgFlag.VlsdChannel ≠ 0 then pos + g.headerSize + 24 else 0) ∧
    (g.writeBlock pos f).1.nofInvalidPosition =
      (if g.flags &&& CgFlag.VlsdChannel ≠ 0 then pos + g.headerSize + 28 else 0) ∧
    ∀ a, ¬patchHit ((g.writeBlock pos f).1.nofSamplesPosition) 8 a →
      ¬patchHit ((g.writeBlock pos f).1.nofDataPosition) 4 a →
      ¬patchHit ((g.writeBlock pos f).1.nofInvalidPosition) 4 a →
      (gs.foldl (fun fc gu => (gu.writeBlock 0 fc).2) ((g.writeBlock pos f).2)) a =
        (g.writeBlock pos f).2 a := by
  have hnot : ¬(g.filePosition > 0) := by simp [hfp]
  refine ⟨?_, ?_, ?_, ?_⟩
  · simp [Cg4Block.writeBlock, if_neg hnot, Cg4Block.headerSize]
  · by_cases hv : g.flags &&& CgFlag.VlsdChannel ≠ 0 <;>
      simp [Cg4Block.writeBlock, if_neg hnot, Cg4Block.headerSize, hv, hd0]
  · by_cases hv : g.flags &&& CgFlag.VlsdChannel ≠ 0 <;>
      simp [Cg4Block.writeBlock, if_neg hnot, Cg4Block.headerSize, hv, hi0]
  · intro a h1 h2 h3
    have hgen : ∀ (l : List Cg4Block) (fc : File),
        (∀ gu ∈ l, 0 < gu.filePosition ∧
          gu.nofSamplesPosition = (g.writeBlock pos f).1.nofSamplesPosition ∧
          gu.nofDataPosition = (g.writeBlock pos f).1.nofDataPosition ∧
          gu.nofInvalidPosition = (g.writeBlock pos f).1.nofInvalidPosition) →
        fc a = (g.writeBlock pos f).2 a →
        (l.foldl (fun fc gu => (gu.writeBlock 0 fc).2) fc) a =
          (g.writeBlock pos f).2 a := by
      intro l
      induction l with
      | nil =>
        intro fc _ hfc
        simpa using hfc
      | cons gu rest ih =>
        intro fc hl hfc
        have hmem := hl gu (List.mem_cons_self _ _)
        have hstep : (gu.writeBlock 0 fc).2 a = fc a := by
          apply writeBlock_update_frame gu 0 fc a hmem.1
          · rw [hmem.2.1]
            exact h1
          · rw [hmem.2.2.1]
            exact h2
          · rw [hmem.2.2.2]
            exact h3
        simp only [List.foldl_cons]
        exact ih _ (fun x hx => hl x (List.mem_cons_of_mem _ hx))
          (by rw [hstep]; exact hfc)
    exact hgen gs ((g.writeBlock pos f).2) hsame rfl

/-- Witness for `write_update_frame`: two update writes with changed
counters leave the header byte at offset 64 (the block's first byte)
unchanged from the first write. -/
theorem write_update_frame_witness :
    (cwGs4.foldl (fun fc gu => (gu.writeBlock 0 fc).2)
      ((cwG4.writeBlock 64 witF).2)) 64 = (cwG4.writeBlock 64 witF).2 64 := by
  have h := write_update_frame cwG4 64 witF cwGs4 rfl rfl rfl ?hsame
  case hsame =>
    intro gu hgu
    simp only [cwGs4, List.mem_cons, List.not_mem_nil, or_false] at hgu
    rcases hgu with rfl | rfl
    · exact ⟨by decide, rfl, rfl, rfl⟩
    · exact ⟨by decide, rfl, rfl, rfl⟩
  refine h.2.2.2 64 ?_ ?_ ?_
  · rw [h.1]
    unfold patchHit
    decide
  · rw [h.2.1]
    unfold patchHit
    decide
  · rw [h.2.2.1]
    unfold patchHit
    decide

end Mdf
